import Mathlib

/-!
Verification of the STUN (RFC 5389) message envelope codec of the Doubango
repository (src/trunk/tinyNET/src/stun/tnet_stun_message.h).

The header file under src declares the wire constants, the discriminator
macro TNET_IS_STUN2, the class/method/type enumerations and the message
structure; the bodies of tnet_stun_message_serialize and
tnet_stun_message_deserialize are declared there (lines 203-204) but their
translation units are not part of the sources, so those two operations are
modelled from the specification (sections 4.1-4.4), as marked on each
definition below.

Buffers are lists of byte values (natural numbers below 256); machine
integers are natural numbers with explicit reductions modulo 2 ^ 32 where
the C code wraps.
-/

namespace Stun

/-- Source line 68: the STUN magic cookie constant 0x2112A442. -/
def TNET_STUN_MAGIC_COOKIE : Nat := 0x2112A442

/-- Source line 70: size of the fixed STUN header, 20 bytes. -/
def TNET_STUN_HEADER_SIZE : Nat := 20

/-- Source line 96: size of the transaction identifier, 12 bytes. -/
def TNET_STUN_TRANSACID_SIZE : Nat := 12

/-- Native (little-endian host) 32-bit load of the first four bytes of a
buffer, as performed by the cast in the TNET_IS_STUN2 macro. Out-of-range
reads default to 0 in the embedding. -/
def load32le (b : List Nat) : Nat :=
  b.getD 0 0 + b.getD 1 0 * 256 + b.getD 2 0 * 65536 + b.getD 3 0 * 16777216

/-- htonl on a little-endian host: byte-swap of a 32-bit value. -/
def htonl (x : Nat) : Nat :=
  (x / 16777216) % 256 + ((x / 65536) % 256) * 256 +
    ((x / 256) % 256) * 65536 + (x % 256) * 16777216

/-- Source lines 85-87, embedded as written: the first conjunct checks the
top two bits of byte 0; the second dereferences the buffer as a uint32_t at
offset 0 (bytes 0-3), adds 1 to the loaded VALUE (with 32-bit wraparound),
and compares against htonl of the cookie. The macro never touches the
cookie field at bytes 4-7. -/
def TNET_IS_STUN2 (PU8 : List Nat) : Bool :=
  ((PU8.getD 0 0 &&& 0xc0) == 0x00) &&
  (((load32le PU8 + 1) % 4294967296) == htonl TNET_STUN_MAGIC_COOKIE)

/-- Modelled from the spec, section 4.1 (the encode formula is quoted
verbatim there); the enumerators of tnet_stun_message_type_e at source
lines 157-160 are its values at method 1. -/
def stun_type_encode (c m : Nat) : Nat :=
  (m &&& 0xF) ||| ((c &&& 1) <<< 4) ||| ((m &&& 0x70) <<< 1) |||
    (((c >>> 1) &&& 1) <<< 8) ||| ((m &&& 0xF80) <<< 2)

/-- Error kinds of the codec, from spec section 7. -/
inductive StunError where
  | Incomplete
  | NotStunMessage
  | MalformedType
  | TruncatedAttribute
  | TrailingGarbage
  | MessageTooLarge
deriving DecidableEq, Repr

instance instExceptDecEq {ε α : Type} [DecidableEq ε] [DecidableEq α] :
    DecidableEq (Except ε α) := fun x y =>
  match x, y with
  | .ok a, .ok b =>
    if h : a = b then isTrue (by rw [h])
    else isFalse (by intro hc; cases hc; exact h rfl)
  | .error e, .error f =>
    if h : e = f then isTrue (by rw [h])
    else isFalse (by intro hc; cases hc; exact h rfl)
  | .ok _, .error _ => isFalse (by intro hc; cases hc)
  | .error _, .ok _ => isFalse (by intro hc; cases hc)

/-- Modelled from the spec, section 4.1: decode fails with MalformedType
when bits 14-15 are nonzero, otherwise inverts the interleaving table. -/
def stun_type_decode (w : Nat) : Except StunError (Nat × Nat) :=
  if w &&& 0xC000 ≠ 0 then .error .MalformedType
  else .ok (((w >>> 4) &&& 1) ||| (((w >>> 8) &&& 1) <<< 1),
    (w &&& 0xF) ||| ((w >>> 1) &&& 0x70) ||| ((w >>> 2) &&& 0xF80))

/-- Attribute TLV frame, from spec section 3: 16-bit type code and the
unpadded value bytes; the length field is the value's length. -/
structure AttributeFrame where
  type_code : Nat
  value : List Nat
deriving DecidableEq, Repr

/-- Message structure mirroring tnet_stun_message_s (source lines 173-198):
type (as the class/method pair of spec section 3), declared attribute
section length, cookie, transaction id, attribute list. -/
structure Message where
  type : Nat × Nat
  length : Nat
  cookie : Nat
  transaction_id : List Nat
  attributes : List AttributeFrame
deriving DecidableEq, Repr

/-- Rounding up to the next multiple of 4 (wire alignment of attributes). -/
def align4 (n : Nat) : Nat := (n + 3) / 4 * 4

/-- Wire footprint of one attribute frame: 4-byte-aligned (4 + length),
spec invariant 4. -/
def attrWireSize (a : AttributeFrame) : Nat := align4 (4 + a.value.length)

/-- Total wire footprint of an attribute list (spec section 4.2,
total_wire_size). -/
def attrsWireSize (l : List AttributeFrame) : Nat := (l.map attrWireSize).sum

/-- Big-endian (network byte order) encoding of a 16-bit value. -/
def be16 (n : Nat) : List Nat := [n / 256 % 256, n % 256]

/-- Big-endian (network byte order) encoding of a 32-bit value. -/
def be32 (n : Nat) : List Nat :=
  [n / 16777216 % 256, n / 65536 % 256, n / 256 % 256, n % 256]

/-- Big-endian read of a 16-bit value from two bytes. -/
def read16 (hi lo : Nat) : Nat := hi * 256 + lo

/-- Big-endian read of a 32-bit value from four bytes. -/
def read32 (b3 b2 b1 b0 : Nat) : Nat := ((b3 * 256 + b2) * 256 + b1) * 256 + b0

/-- Modelled from the spec, section 4.2: encode one frame as type code,
true length, value bytes, and zero padding to the next 4-byte boundary. -/
def serializeAttr (a : AttributeFrame) : List Nat :=
  be16 a.type_code ++ be16 a.value.length ++ a.value ++
    List.replicate (align4 a.value.length - a.value.length) 0

/-- Modelled from the spec, section 4.4 step 1: render each attribute in
list order and concatenate. -/
def serializeAttrs : List AttributeFrame → List Nat
  | [] => []
  | a :: l => serializeAttr a ++ serializeAttrs l

/-- Modelled from the spec, section 4.2: decode one frame from a window.
Fails with TruncatedAttribute when fewer than 4 bytes remain for the
type/length pair, or when the window is smaller than the padded frame
size. On success returns the frame and the number of bytes consumed
(header plus value plus padding); pad bytes are read and discarded. -/
def decodeAttr (w : List Nat) : Except StunError (AttributeFrame × Nat) :=
  if w.length < 4 then .error .TruncatedAttribute
  else if w.length < 4 + align4 (read16 (w.getD 2 0) (w.getD 3 0)) then
    .error .TruncatedAttribute
  else .ok (⟨read16 (w.getD 0 0) (w.getD 1 0),
    (w.drop 4).take (read16 (w.getD 2 0) (w.getD 3 0))⟩,
    4 + align4 (read16 (w.getD 2 0) (w.getD 3 0)))

/-- Modelled from the spec, section 4.3 step 7: repeatedly decode frames
from the length-bounded window until exactly 0 bytes remain; a nonzero
remainder too small for a new frame header is TrailingGarbage; a frame
whose padded size overruns the window is TruncatedAttribute. The fuel
argument makes the recursion structural; a fuel of at least the window
length is always sufficient since every frame consumes at least 4 bytes. -/
def parseAttrsFuel : Nat → List Nat → Except StunError (List AttributeFrame)
  | 0, w => if w.length = 0 then .ok [] else .error .TrailingGarbage
  | fuel + 1, w =>
    if w.length = 0 then .ok []
    else if w.length < 4 then .error .TrailingGarbage
    else if w.length < 4 + align4 (read16 (w.getD 2 0) (w.getD 3 0)) then
      .error .TruncatedAttribute
    else
      match parseAttrsFuel fuel (w.drop (4 + align4 (read16 (w.getD 2 0) (w.getD 3 0)))) with
      | .ok rest =>
        .ok (⟨read16 (w.getD 0 0) (w.getD 1 0),
          (w.drop 4).take (read16 (w.getD 2 0) (w.getD 3 0))⟩ :: rest)
      | .error e => .error e

/-- The attribute section decode loop at its canonical fuel. -/
def parseAttrs (w : List Nat) : Except StunError (List AttributeFrame) :=
  parseAttrsFuel w.length w

/-- Modelled from the spec, section 4.4: render attributes, reject with
MessageTooLarge when the rendered byte count overflows the 16-bit length
field, else concatenate type word, length, cookie constant, transaction id
and attribute bytes. Source declaration: tnet_stun_message_serialize,
line 203. -/
def tnet_stun_message_serialize (msg : Message) : Except StunError (List Nat) :=
  if 65535 < (serializeAttrs msg.attributes).length then .error .MessageTooLarge
  else .ok (be16 (stun_type_encode msg.type.1 msg.type.2) ++
    be16 (serializeAttrs msg.attributes).length ++
    be32 TNET_STUN_MAGIC_COOKIE ++ msg.transaction_id ++ serializeAttrs msg.attributes)

/-- Modelled from the spec, section 4.3: under 20 bytes is Incomplete; a
first byte with nonzero top 2 bits, or a cookie field differing from the
constant, is NotStunMessage; fewer than the declared length bytes after
the header is Incomplete; then the attribute window is decoded exactly and
the type word decomposed. Source declaration:
tnet_stun_message_deserialize, line 204. -/
def tnet_stun_message_deserialize (data : List Nat) : Except StunError Message :=
  if data.length < TNET_STUN_HEADER_SIZE then .error .Incomplete
  else if data.getD 0 0 &&& 0xC0 ≠ 0 then .error .NotStunMessage
  else if read32 (data.getD 4 0) (data.getD 5 0) (data.getD 6 0) (data.getD 7 0)
      ≠ TNET_STUN_MAGIC_COOKIE then .error .NotStunMessage
  else if data.length - TNET_STUN_HEADER_SIZE < read16 (data.getD 2 0) (data.getD 3 0) then
    .error .Incomplete
  else
    match parseAttrs
        ((data.drop TNET_STUN_HEADER_SIZE).take (read16 (data.getD 2 0) (data.getD 3 0))) with
    | .error e => .error e
    | .ok attrs =>
      match stun_type_decode (read16 (data.getD 0 0) (data.getD 1 0)) with
      | .error e => .error e
      | .ok cm =>
        .ok ⟨cm, read16 (data.getD 2 0) (data.getD 3 0),
          read32 (data.getD 4 0) (data.getD 5 0) (data.getD 6 0) (data.getD 7 0),
          (data.drop 8).take TNET_STUN_TRANSACID_SIZE, attrs⟩

/-- Well-formedness of attribute frames: type code and length fit their
16-bit fields and values are bytes. -/
def AttrsValid (l : List AttributeFrame) : Prop :=
  ∀ a ∈ l, a.type_code < 65536 ∧ a.value.length ≤ 65535 ∧ ∀ b ∈ a.value, b < 256

/-- A validly constructed Message, per the spec invariants of section 3:
class and method in range, declared length derived from the attributes,
cookie equal to the constant, a 12-byte transaction id, an attribute
section fitting the 16-bit length field, well-formed frames. -/
def Message.valid (msg : Message) : Prop :=
  msg.type.1 < 4 ∧ msg.type.2 < 4096 ∧
  msg.length = attrsWireSize msg.attributes ∧
  msg.cookie = TNET_STUN_MAGIC_COOKIE ∧
  msg.transaction_id.length = TNET_STUN_TRANSACID_SIZE ∧
  (∀ b ∈ msg.transaction_id, b < 256) ∧
  attrsWireSize msg.attributes ≤ 65535 ∧
  AttrsValid msg.attributes

/-- The concrete message of the spec's concrete scenario: class 2
(success-response), method 1 (binding), zero transaction id, no
attributes. -/
def msg_binding_success : Message :=
  ⟨(2, 1), 0, TNET_STUN_MAGIC_COOKIE, List.replicate 12 0, []⟩

/-! ## Bitwise-to-arithmetic bridge lemmas -/

theorem land_shiftLeft_mask (x y k : Nat) :
    x &&& (y <<< k) = ((x >>> k) &&& y) <<< k := by
  apply Nat.eq_of_testBit_eq
  intro i
  rw [Nat.testBit_land, Nat.testBit_shiftLeft, Nat.testBit_shiftLeft, Nat.testBit_land,
    Nat.testBit_shiftRight]
  by_cases h : k ≤ i
  · have hki : k + (i - k) = i := by omega
    rw [hki]
    simp only [ge_iff_le, h, decide_eq_true_eq]
    cases x.testBit i <;> cases y.testBit (i - k) <;> simp [h]
  · simp [h]

theorem land_two_pow_sub_one (x n : Nat) : x &&& (2 ^ n - 1) = x % 2 ^ n := by
  apply Nat.eq_of_testBit_eq
  intro i
  rw [Nat.testBit_land, Nat.testBit_two_pow_sub_one, Nat.testBit_mod_two_pow]
  cases x.testBit i <;> simp

theorem lor_eq_add_of_mod (a b k : Nat) (ha : a % 2 ^ k = 0) (hb : b < 2 ^ k) :
    a ||| b = a + b := by
  apply Nat.eq_of_testBit_eq
  intro j
  have hrep : a + b = 2 ^ k * (a / 2 ^ k) + b := by
    rw [Nat.mul_div_cancel' (Nat.dvd_of_mod_eq_zero ha)]
  rw [Nat.testBit_lor, hrep, Nat.testBit_mul_pow_two_add _ hb]
  by_cases h : j < k
  · have hf : a.testBit j = (a % 2 ^ k).testBit j := by
      rw [Nat.testBit_mod_two_pow]
      simp [h]
    rw [if_pos h, hf, ha]
    simp
  · rw [if_neg h]
    have hbf : b.testBit j = false :=
      Nat.testBit_lt_two_pow (lt_of_lt_of_le hb (Nat.pow_le_pow_right (by omega) (by omega)))
    have hdiv : (a / 2 ^ k).testBit (j - k) = a.testBit j := by
      rw [← Nat.shiftRight_eq_div_pow, Nat.testBit_shiftRight]
      congr 1
      omega
    rw [hdiv, hbf, Bool.or_false]

theorem lor_eq_add_of_lt (a b k : Nat) (ha : a < 2 ^ k) (hb : b % 2 ^ k = 0) :
    a ||| b = a + b := by
  rw [Nat.lor_comm, lor_eq_add_of_mod b a k hb ha]
  omega

theorem land_15 (x : Nat) : x &&& 15 = x % 16 := by
  have h := land_two_pow_sub_one x 4
  norm_num at h
  exact h

theorem land_1 (x : Nat) : x &&& 1 = x % 2 := by
  simpa using land_two_pow_sub_one x 1

theorem land_0x70 (x : Nat) : x &&& 0x70 = x / 16 % 8 * 16 := by
  rw [show (0x70 : Nat) = (7 : Nat) <<< 4 by decide,
    land_shiftLeft_mask, show ((7 : Nat) = 2 ^ 3 - 1) by norm_num,
    land_two_pow_sub_one, Nat.shiftRight_eq_div_pow, Nat.shiftLeft_eq]
  norm_num

theorem land_0xF80 (x : Nat) : x &&& 0xF80 = x / 128 % 32 * 128 := by
  rw [show (0xF80 : Nat) = (31 : Nat) <<< 7 by decide,
    land_shiftLeft_mask, show ((31 : Nat) = 2 ^ 5 - 1) by norm_num,
    land_two_pow_sub_one, Nat.shiftRight_eq_div_pow, Nat.shiftLeft_eq]
  norm_num

theorem land_0xC0 (x : Nat) : x &&& 0xC0 = x / 64 % 4 * 64 := by
  rw [show (0xC0 : Nat) = (3 : Nat) <<< 6 by decide,
    land_shiftLeft_mask, show ((3 : Nat) = 2 ^ 2 - 1) by norm_num,
    land_two_pow_sub_one, Nat.shiftRight_eq_div_pow, Nat.shiftLeft_eq]
  norm_num

theorem land_0xC000 (x : Nat) : x &&& 0xC000 = x / 16384 % 4 * 16384 := by
  rw [show (0xC000 : Nat) = (3 : Nat) <<< 14 by decide,
    land_shiftLeft_mask, show ((3 : Nat) = 2 ^ 2 - 1) by norm_num,
    land_two_pow_sub_one, Nat.shiftRight_eq_div_pow, Nat.shiftLeft_eq]
  norm_num

/-! ## Type codec -/

theorem stun_type_encode_eq (c m : Nat) :
    stun_type_encode c m =
      m / 128 % 32 * 512 + c / 2 % 2 * 256 + m / 16 % 8 * 32 + c % 2 * 16 + m % 16 := by
  unfold stun_type_encode
  rw [show (0xF : Nat) = 15 by norm_num, land_15, land_1, land_0x70, land_0xF80,
    Nat.shiftRight_eq_div_pow, land_1, Nat.shiftLeft_eq, Nat.shiftLeft_eq, Nat.shiftLeft_eq,
    Nat.shiftLeft_eq]
  norm_num
  rw [lor_eq_add_of_lt (m % 16) (c % 2 * 16) 4 (by omega) (by omega)]
  rw [lor_eq_add_of_lt (m % 16 + c % 2 * 16) (m / 16 % 8 * 16 * 2) 5 (by omega) (by omega)]
  rw [lor_eq_add_of_lt (m % 16 + c % 2 * 16 + m / 16 % 8 * 16 * 2) (c / 2 % 2 * 256) 8
    (by omega) (by omega)]
  rw [lor_eq_add_of_lt (m % 16 + c % 2 * 16 + m / 16 % 8 * 16 * 2 + c / 2 % 2 * 256)
    (m / 128 % 32 * 128 * 4) 9 (by omega) (by omega)]
  ring

theorem stun_type_encode_lt (c m : Nat) : stun_type_encode c m < 16384 := by
  rw [stun_type_encode_eq]
  omega

theorem stun_type_decode_word (w : Nat) (h : w < 16384) :
    stun_type_decode w =
      .ok (w / 16 % 2 + w / 256 % 2 * 2, w % 16 + w / 32 % 8 * 16 + w / 512 % 32 * 128) := by
  unfold stun_type_decode
  rw [if_neg (by rw [land_0xC000]; omega)]
  rw [show (0xF : Nat) = 15 by norm_num, land_15, land_1, land_1, land_0x70, land_0xF80,
    Nat.shiftRight_eq_div_pow, Nat.shiftRight_eq_div_pow, Nat.shiftRight_eq_div_pow,
    Nat.shiftRight_eq_div_pow, Nat.shiftLeft_eq]
  norm_num
  rw [Nat.div_div_eq_div_mul, Nat.div_div_eq_div_mul]
  norm_num
  rw [lor_eq_add_of_lt (w / 16 % 2) (w / 256 % 2 * 2) 1 (by omega) (by omega)]
  rw [lor_eq_add_of_lt (w % 16) (w / 32 % 8 * 16) 4 (by omega) (by omega)]
  rw [lor_eq_add_of_lt (w % 16 + w / 32 % 8 * 16) (w / 512 % 32 * 128) 7 (by omega) (by omega)]
  exact ⟨rfl, rfl⟩

theorem stun_type_decode_encode_aux :
    ∀ c < 4, ∀ m < 4096, stun_type_decode (stun_type_encode c m) = .ok (c, m) := by
  intro c hc m hm
  rw [stun_type_encode_eq, stun_type_decode_word _ (by omega)]
  have key : ∀ f0 f1 f2 c0 c1 : Nat, f0 < 16 → f1 < 8 → f2 < 32 → c0 < 2 → c1 < 2 →
      ((f2 * 512 + c1 * 256 + f1 * 32 + c0 * 16 + f0) / 16 % 2 +
        (f2 * 512 + c1 * 256 + f1 * 32 + c0 * 16 + f0) / 256 % 2 * 2,
        (f2 * 512 + c1 * 256 + f1 * 32 + c0 * 16 + f0) % 16 +
        (f2 * 512 + c1 * 256 + f1 * 32 + c0 * 16 + f0) / 32 % 8 * 16 +
        (f2 * 512 + c1 * 256 + f1 * 32 + c0 * 16 + f0) / 512 % 32 * 128)
        = ((c1 * 2 + c0 : Nat), (f2 * 128 + f1 * 16 + f0 : Nat)) := by
    intro f0 f1 f2 c0 c1 g0 g1 g2 g3 g4
    rw [Prod.mk.injEq]
    exact ⟨by omega, by omega⟩
  have hinst := key (m % 16) (m / 16 % 8) (m / 128 % 32) (c % 2) (c / 2 % 2)
    (by omega) (by omega) (by omega) (by omega) (by omega)
  have hc2 : c / 2 % 2 * 2 + c % 2 = c := by omega
  have hm2 : m / 128 % 32 * 128 + m / 16 % 8 * 16 + m % 16 = m := by omega
  rw [hc2, hm2] at hinst
  rw [hinst]

/-- C3: for every class in 0..3 and method in 0..4095, decoding the word
produced by the encode interleaving returns exactly the pair, and the
encodings of method 1 (binding) are the four enumerator values of
tnet_stun_message_type_e (source lines 157-160). -/
theorem c3_type_codec_bijection (c m : Nat) (hc : c < 4) (hm : m < 4096) :
    stun_type_decode (stun_type_encode c m) = .ok (c, m) ∧
    stun_type_encode 0 1 = 0x0001 ∧ stun_type_encode 1 1 = 0x0011 ∧
    stun_type_encode 2 1 = 0x0101 ∧ stun_type_encode 3 1 = 0x0111 :=
  ⟨stun_type_decode_encode_aux c hc m hm, by decide, by decide, by decide, by decide⟩

/-- C3 witness: the bijection at class 2 (success response), method 1
(binding). -/
theorem c3_type_codec_bijection_witness :
    stun_type_decode (stun_type_encode 2 1) = .ok (2, 1) ∧
    stun_type_encode 0 1 = 0x0001 ∧ stun_type_encode 1 1 = 0x0011 ∧
    stun_type_encode 2 1 = 0x0101 ∧ stun_type_encode 3 1 = 0x0111 :=
  c3_type_codec_bijection 2 1 (by decide) (by decide)

/-! ## The discriminator macro -/

theorem getD_take_of_lt (l : List Nat) (i d n : Nat) (h : i < n) :
    (l.take n).getD i d = l.getD i d := by
  rw [List.getD_eq_getElem?_getD, List.getD_eq_getElem?_getD, List.getElem?_take_of_lt h]

/-- C10: the TNET_IS_STUN2 macro holds exactly when byte 0 has zero top
bits and the 32-bit word loaded at offset 0 (spanning the type and length
fields) plus 1 equals htonl of the cookie; its verdict depends only on the
first 4 bytes, so it is independent of the cookie field at offsets 4-7. -/
theorem c10_is_stun2_reads_only_first_word :
    (∀ b : List Nat, TNET_IS_STUN2 b = true ↔
      (b.getD 0 0 &&& 0xc0 = 0 ∧
        (load32le b + 1) % 4294967296 = htonl TNET_STUN_MAGIC_COOKIE)) ∧
    (∀ b b' : List Nat, b.take 4 = b'.take 4 → TNET_IS_STUN2 b = TNET_IS_STUN2 b') := by
  constructor
  · intro b
    unfold TNET_IS_STUN2
    simp [Bool.and_eq_true, beq_iff_eq]
  · intro b b' h
    have hg : ∀ i, i < 4 → b.getD i 0 = b'.getD i 0 := by
      intro i hi
      rw [← getD_take_of_lt b i 0 4 hi, ← getD_take_of_lt b' i 0 4 hi, h]
    unfold TNET_IS_STUN2 load32le
    rw [hg 0 (by omega), hg 1 (by omega), hg 2 (by omega), hg 3 (by omega)]

/-- C10 witness: two buffers sharing their first 4 bytes but with
different cookie fields (offsets 4-7) get the same verdict. -/
theorem c10_is_stun2_reads_only_first_word_witness :
    TNET_IS_STUN2 [0x20, 0x12, 0xA4, 0x42, 0x21, 0x12, 0xA4, 0x42] =
      TNET_IS_STUN2 [0x20, 0x12, 0xA4, 0x42, 0, 0, 0, 0] :=
  c10_is_stun2_reads_only_first_word.2
    [0x20, 0x12, 0xA4, 0x42, 0x21, 0x12, 0xA4, 0x42]
    [0x20, 0x12, 0xA4, 0x42, 0, 0, 0, 0] (by decide)

/-! ## Deserialization claims -/

/-- C2: the deserializer is a total Lean function over arbitrary byte
lists (every index access below is a guarded getD or a take/drop), and
every buffer shorter than the 20-byte header yields Incomplete. -/
theorem c2_deserialize_total_short_incomplete (data : List Nat)
    (h : data.length < TNET_STUN_HEADER_SIZE) :
    tnet_stun_message_deserialize data = .error .Incomplete := by
  unfold tnet_stun_message_deserialize
  rw [if_pos h]

/-- C2 witness: the empty buffer. -/
theorem c2_deserialize_total_short_incomplete_witness :
    tnet_stun_message_deserialize [] = .error .Incomplete :=
  c2_deserialize_total_short_incomplete [] (by decide)

/-- C1: on any buffer of at least 20 bytes whose first byte has nonzero
top 2 bits or whose cookie field at offsets 4-7 is not the constant in
network byte order, deserialize returns NotStunMessage (so no Message is
ever constructed from it). -/
theorem c1_discriminator_not_stun (data : List Nat)
    (hlen : TNET_STUN_HEADER_SIZE ≤ data.length)
    (hbytes : ∀ b ∈ data, b < 256)
    (h : data.getD 0 0 &&& 0xC0 ≠ 0 ∨
      read32 (data.getD 4 0) (data.getD 5 0) (data.getD 6 0) (data.getD 7 0)
        ≠ TNET_STUN_MAGIC_COOKIE) :
    tnet_stun_message_deserialize data = .error .NotStunMessage := by
  unfold tnet_stun_message_deserialize
  rw [if_neg (by omega)]
  by_cases h0 : data.getD 0 0 &&& 0xC0 ≠ 0
  · rw [if_pos h0]
  · rw [if_neg h0]
    have hcookie : read32 (data.getD 4 0) (data.getD 5 0) (data.getD 6 0) (data.getD 7 0)
        ≠ TNET_STUN_MAGIC_COOKIE := by tauto
    rw [if_pos hcookie]

/-- C1 witness: a 20-byte buffer starting with 0x80 (top bits 10). -/
theorem c1_discriminator_not_stun_witness :
    tnet_stun_message_deserialize (0x80 :: List.replicate 19 0) = .error .NotStunMessage :=
  c1_discriminator_not_stun (0x80 :: List.replicate 19 0) (by decide) (by decide)
    (Or.inl (by decide))

/-- C6: a 19-byte buffer is Incomplete; a 20-byte buffer with zero top
bits, zero declared length, and a valid cookie decodes to a Message with
no attributes. -/
theorem c6_boundary :
    (∀ data : List Nat, data.length = 19 →
      tnet_stun_message_deserialize data = .error .Incomplete) ∧
    (∀ data : List Nat, data.length = 20 →
      data.getD 0 0 < 256 → data.getD 1 0 < 256 →
      data.getD 0 0 &&& 0xC0 = 0 →
      read16 (data.getD 2 0) (data.getD 3 0) = 0 →
      read32 (data.getD 4 0) (data.getD 5 0) (data.getD 6 0) (data.getD 7 0)
        = TNET_STUN_MAGIC_COOKIE →
      ∃ msg, tnet_stun_message_deserialize data = .ok msg ∧ msg.attributes = []) := by
  constructor
  · intro data h
    unfold tnet_stun_message_deserialize
    rw [if_pos (by rw [h]; decide)]
  · intro data hlen h0 h1 htop hlf hcookie
    unfold tnet_stun_message_deserialize
    rw [if_neg (by rw [hlen]; decide)]
    rw [if_neg (not_ne_iff.mpr htop)]
    rw [if_neg (not_ne_iff.mpr hcookie)]
    rw [hlf]
    rw [if_neg (by omega)]
    have hb0 : data.getD 0 0 < 64 := by
      have h64 := land_0xC0 (data.getD 0 0)
      omega
    have hw : read16 (data.getD 0 0) (data.getD 1 0) < 16384 := by
      unfold read16
      omega
    rw [stun_type_decode_word _ hw]
    exact ⟨_, rfl, rfl⟩

/-- C6 witness: 19 zero bytes, and a concrete 20-byte binding indication
header with zero length. -/
theorem c6_boundary_witness :
    tnet_stun_message_deserialize (List.replicate 19 0) = .error .Incomplete ∧
    ∃ msg, tnet_stun_message_deserialize
        ([0, 1, 0, 0, 0x21, 0x12, 0xA4, 0x42] ++ List.replicate 12 0) = .ok msg ∧
      msg.attributes = [] :=
  ⟨c6_boundary.1 (List.replicate 19 0) (by decide),
   c6_boundary.2 ([0, 1, 0, 0, 0x21, 0x12, 0xA4, 0x42] ++ List.replicate 12 0)
     (by decide) (by decide) (by decide) (by decide) (by decide) (by decide)⟩

/-- C5: serializing the binding success response with zero transaction id
and no attributes yields exactly the 20 bytes 01 01 00 00 21 12 A4 42
followed by 12 zero bytes, and deserializing those bytes reproduces the
same message. -/
theorem c5_binding_success_concrete :
    tnet_stun_message_serialize msg_binding_success =
      .ok ([0x01, 0x01, 0x00, 0x00, 0x21, 0x12, 0xA4, 0x42] ++ List.replicate 12 0) ∧
    tnet_stun_message_deserialize
        ([0x01, 0x01, 0x00, 0x00, 0x21, 0x12, 0xA4, 0x42] ++ List.replicate 12 0) =
      .ok msg_binding_success := by
  exact ⟨by decide, by decide⟩

/-! ## Attribute frame padding -/

theorem align4_ge (n : Nat) : n ≤ align4 n := by
  unfold align4
  omega

theorem align4_add4 (n : Nat) : align4 (4 + n) = 4 + align4 n := by
  unfold align4
  omega

theorem read16_be16 (n : Nat) (h : n < 65536) : read16 (n / 256 % 256) (n % 256) = n := by
  unfold read16
  omega

theorem serializeAttr_length (a : AttributeFrame) :
    (serializeAttr a).length = attrWireSize a := by
  unfold serializeAttr attrWireSize be16
  simp only [List.length_append, List.length_cons, List.length_nil, List.length_replicate]
  have h1 := align4_ge a.value.length
  have h2 := align4_add4 a.value.length
  omega

theorem attrsWireSize_cons (a : AttributeFrame) (l : List AttributeFrame) :
    attrsWireSize (a :: l) = attrWireSize a + attrsWireSize l := by
  unfold attrsWireSize
  simp

theorem serializeAttrs_length (l : List AttributeFrame) :
    (serializeAttrs l).length = attrsWireSize l := by
  induction l with
  | nil => rfl
  | cons a l ih =>
    unfold serializeAttrs
    rw [List.length_append, serializeAttr_length, ih, attrsWireSize_cons]

/-- C7 counterexample: the frame with value length 5 occupies 12 bytes on
the wire (4 header + 5 value + 3 pad), not the 8 bytes the claim names,
and its decode consumes 12 bytes. -/
theorem c7_padding_counterexample :
    (serializeAttr ⟨1, [1, 2, 3, 4, 5]⟩).length = 12 ∧
    (serializeAttr ⟨1, [1, 2, 3, 4, 5]⟩).length ≠ 8 ∧
    decodeAttr (serializeAttr ⟨1, [1, 2, 3, 4, 5]⟩) = .ok (⟨1, [1, 2, 3, 4, 5]⟩, 12) :=
  ⟨by decide, by decide, by decide⟩

/-- C7 (amended): a frame of unpadded value length L occupies exactly
align4 (4 + L) bytes (12 bytes for L = 5); its encoding zero-fills the
pad; and decoding the frame followed by arbitrary pad byte contents and
any further bytes consumes exactly the padded size and recovers the
value regardless of the pad bytes. -/
theorem decodeAttr_eq (b0 b1 b2 b3 : Nat) (t : List Nat) :
    decodeAttr (b0 :: b1 :: b2 :: b3 :: t) =
      if 4 + t.length < 4 + align4 (read16 b2 b3) then .error .TruncatedAttribute
      else .ok (⟨read16 b0 b1, t.take (read16 b2 b3)⟩, 4 + align4 (read16 b2 b3)) := by
  unfold decodeAttr
  have hl : (b0 :: b1 :: b2 :: b3 :: t).length = 4 + t.length := by
    simp
    omega
  rw [hl]
  rw [if_neg (by omega)]
  rfl

theorem c7_attr_padding (a : AttributeFrame) (pad rest : List Nat)
    (htc : a.type_code < 65536) (hlen : a.value.length ≤ 65535)
    (hpad : pad.length = align4 a.value.length - a.value.length) :
    (serializeAttr a).length = align4 (4 + a.value.length) ∧
    (serializeAttr a).drop (4 + a.value.length) =
      List.replicate (align4 a.value.length - a.value.length) 0 ∧
    decodeAttr (be16 a.type_code ++ be16 a.value.length ++ a.value ++ pad ++ rest) =
      .ok (a, align4 (4 + a.value.length)) := by
  have hval := align4_ge a.value.length
  have hlen16 : a.value.length < 65536 := by omega
  refine ⟨by rw [serializeAttr_length]; rfl, ?_, ?_⟩
  · unfold serializeAttr
    have hpre : (be16 a.type_code ++ be16 a.value.length ++ a.value).length
        = 4 + a.value.length := by
      simp [be16]
      omega
    rw [List.drop_left' hpre]
  · have hw : be16 a.type_code ++ be16 a.value.length ++ a.value ++ pad ++ rest
        = a.type_code / 256 % 256 :: a.type_code % 256 :: a.value.length / 256 % 256 ::
          a.value.length % 256 :: (a.value ++ (pad ++ rest)) := by
      simp [be16]
    rw [hw, decodeAttr_eq, read16_be16 _ hlen16, read16_be16 _ htc]
    have hlens : (a.value ++ (pad ++ rest)).length
        = a.value.length + pad.length + rest.length := by
      simp
      omega
    rw [if_neg (by omega)]
    rw [List.take_left' rfl, align4_add4]

/-- C7 witness: the amended claim at value length 5 with nonzero pad
contents 7, 8, 9 and a trailing byte. -/
theorem c7_attr_padding_witness :
    (serializeAttr ⟨1, [1, 2, 3, 4, 5]⟩).length = align4 9 ∧
    (serializeAttr ⟨1, [1, 2, 3, 4, 5]⟩).drop 9 = List.replicate 3 0 ∧
    decodeAttr (be16 1 ++ be16 5 ++ [1, 2, 3, 4, 5] ++ [7, 8, 9] ++ [6]) =
      .ok (⟨1, [1, 2, 3, 4, 5]⟩, align4 9) :=
  c7_attr_padding ⟨1, [1, 2, 3, 4, 5]⟩ [7, 8, 9] [6] (by decide) (by decide) (by decide)

/-! ## The attribute section loop -/

theorem parseAttrsFuel_ok_length (fuel : Nat) :
    ∀ (w : List Nat) (l : List AttributeFrame),
      parseAttrsFuel fuel w = .ok l → attrsWireSize l = w.length := by
  induction fuel with
  | zero =>
    intro w l h
    unfold parseAttrsFuel at h
    by_cases h0 : w.length = 0
    · rw [if_pos h0] at h
      cases h
      rw [h0]
      rfl
    · rw [if_neg h0] at h
      cases h
  | succ fuel ih =>
    intro w l h
    unfold parseAttrsFuel at h
    by_cases h0 : w.length = 0
    · rw [if_pos h0] at h
      cases h
      rw [h0]
      rfl
    · rw [if_neg h0] at h
      by_cases h1 : w.length < 4
      · rw [if_pos h1] at h
        cases h
      · rw [if_neg h1] at h
        by_cases h2 : w.length < 4 + align4 (read16 (w.getD 2 0) (w.getD 3 0))
        · rw [if_pos h2] at h
          cases h
        · rw [if_neg h2] at h
          cases hrec : parseAttrsFuel fuel
              (w.drop (4 + align4 (read16 (w.getD 2 0) (w.getD 3 0)))) with
          | error e =>
            rw [hrec] at h
            cases h
          | ok rest =>
            rw [hrec] at h
            cases h
            have hihr := ih _ _ hrec
            have hdroplen : (w.drop (4 + align4 (read16 (w.getD 2 0) (w.getD 3 0)))).length
                = w.length - (4 + align4 (read16 (w.getD 2 0) (w.getD 3 0))) := by
              simp
            have hvallen : ((w.drop 4).take (read16 (w.getD 2 0) (w.getD 3 0))).length
                = read16 (w.getD 2 0) (w.getD 3 0) := by
              have hge := align4_ge (read16 (w.getD 2 0) (w.getD 3 0))
              simp only [List.length_take, List.length_drop]
              omega
            rw [attrsWireSize_cons]
            have hfr : attrWireSize ⟨read16 (w.getD 0 0) (w.getD 1 0),
                (w.drop 4).take (read16 (w.getD 2 0) (w.getD 3 0))⟩
                = 4 + align4 (read16 (w.getD 2 0) (w.getD 3 0)) := by
              unfold attrWireSize
              rw [hvallen, align4_add4]
            rw [hfr]
            omega

theorem parseAttrsFuel_no_mtl (fuel : Nat) :
    ∀ w : List Nat, parseAttrsFuel fuel w ≠ .error .MessageTooLarge := by
  induction fuel with
  | zero =>
    intro w h
    unfold parseAttrsFuel at h
    by_cases h0 : w.length = 0
    · rw [if_pos h0] at h
      cases h
    · rw [if_neg h0] at h
      cases h
  | succ fuel ih =>
    intro w h
    unfold parseAttrsFuel at h
    by_cases h0 : w.length = 0
    · rw [if_pos h0] at h
      cases h
    · rw [if_neg h0] at h
      by_cases h1 : w.length < 4
      · rw [if_pos h1] at h
        cases h
      · rw [if_neg h1] at h
        by_cases h2 : w.length < 4 + align4 (read16 (w.getD 2 0) (w.getD 3 0))
        · rw [if_pos h2] at h
          cases h
        · rw [if_neg h2] at h
          cases hrec : parseAttrsFuel fuel
              (w.drop (4 + align4 (read16 (w.getD 2 0) (w.getD 3 0)))) with
          | error e =>
            rw [hrec] at h
            cases h
            exact ih _ hrec
          | ok rest =>
            rw [hrec] at h
            cases h

theorem parseAttrs_small_garbage (w : List Nat) (h0 : 0 < w.length) (h1 : w.length < 4) :
    parseAttrs w = .error .TrailingGarbage := by
  unfold parseAttrs
  rcases hfl : w.length with _ | n
  · omega
  · unfold parseAttrsFuel
    rw [if_neg (by omega), if_pos (by omega)]

theorem parseAttrs_head_truncated (w : List Nat) (h1 : 4 ≤ w.length)
    (h2 : w.length < 4 + align4 (read16 (w.getD 2 0) (w.getD 3 0))) :
    parseAttrs w = .error .TruncatedAttribute := by
  unfold parseAttrs
  rcases hfl : w.length with _ | n
  · omega
  · unfold parseAttrsFuel
    rw [if_neg (by omega), if_neg (by omega), if_pos h2]

theorem parseAttrs_ok_length (w : List Nat) (l : List AttributeFrame)
    (h : parseAttrs w = .ok l) : attrsWireSize l = w.length :=
  parseAttrsFuel_ok_length w.length w l h

theorem stun_type_decode_error (w : Nat) (e : StunError)
    (h : stun_type_decode w = .error e) : e = .MalformedType := by
  unfold stun_type_decode at h
  by_cases hc : w &&& 0xC000 ≠ 0
  · rw [if_pos hc] at h
    cases h
    rfl
  · rw [if_neg hc] at h
    cases h

theorem deserialize_attrs_error (data : List Nat)
    (h0 : ¬ data.length < TNET_STUN_HEADER_SIZE)
    (h1 : ¬ data.getD 0 0 &&& 0xC0 ≠ 0)
    (h2 : ¬ read32 (data.getD 4 0) (data.getD 5 0) (data.getD 6 0) (data.getD 7 0)
      ≠ TNET_STUN_MAGIC_COOKIE)
    (h3 : ¬ data.length - TNET_STUN_HEADER_SIZE < read16 (data.getD 2 0) (data.getD 3 0))
    (e : StunError)
    (he : parseAttrs ((data.drop TNET_STUN_HEADER_SIZE).take
      (read16 (data.getD 2 0) (data.getD 3 0))) = .error e) :
    tnet_stun_message_deserialize data = .error e := by
  unfold tnet_stun_message_deserialize
  rw [if_neg h0, if_neg h1, if_neg h2, if_neg h3, he]

theorem deserialize_ok_consumed (data : List Nat) (msg : Message)
    (h : tnet_stun_message_deserialize data = .ok msg) :
    attrsWireSize msg.attributes = msg.length := by
  unfold tnet_stun_message_deserialize at h
  by_cases h0 : data.length < TNET_STUN_HEADER_SIZE
  · rw [if_pos h0] at h
    cases h
  · rw [if_neg h0] at h
    by_cases h1 : data.getD 0 0 &&& 0xC0 ≠ 0
    · rw [if_pos h1] at h
      cases h
    · rw [if_neg h1] at h
      by_cases h2 : read32 (data.getD 4 0) (data.getD 5 0) (data.getD 6 0) (data.getD 7 0)
          ≠ TNET_STUN_MAGIC_COOKIE
      · rw [if_pos h2] at h
        cases h
      · rw [if_neg h2] at h
        by_cases h3 : data.length - TNET_STUN_HEADER_SIZE
            < read16 (data.getD 2 0) (data.getD 3 0)
        · rw [if_pos h3] at h
          cases h
        · rw [if_neg h3] at h
          cases hp : parseAttrs ((data.drop TNET_STUN_HEADER_SIZE).take
              (read16 (data.getD 2 0) (data.getD 3 0))) with
          | error e =>
            rw [hp] at h
            cases h
          | ok attrs =>
            rw [hp] at h
            cases hd : stun_type_decode (read16 (data.getD 0 0) (data.getD 1 0)) with
            | error e =>
              rw [hd] at h
              cases h
            | ok cm =>
              rw [hd] at h
              cases h
              have hlen := parseAttrs_ok_length _ _ hp
              have hwin : ((data.drop TNET_STUN_HEADER_SIZE).take
                  (read16 (data.getD 2 0) (data.getD 3 0))).length
                  = read16 (data.getD 2 0) (data.getD 3 0) := by
                simp only [List.length_take, List.length_drop]
                omega
              rw [hwin] at hlen
              exact hlen

/-- C8 counterexample: a 22-byte message with declared length 2 leaves a
nonzero remainder of 2 bytes, too small for a frame header; the decoder
reports TrailingGarbage there, not TruncatedAttribute as the claim
states. -/
theorem c8_small_remainder_counterexample :
    tnet_stun_message_deserialize
        ([0, 0, 0, 2, 0x21, 0x12, 0xA4, 0x42] ++ List.replicate 12 0 ++ [0, 0])
      = .error .TrailingGarbage ∧
    tnet_stun_message_deserialize
        ([0, 0, 0, 2, 0x21, 0x12, 0xA4, 0x42] ++ List.replicate 12 0 ++ [0, 0])
      ≠ .error .TruncatedAttribute :=
  ⟨by decide, by decide⟩

/-- C8 (amended): the declared length is authoritative. A decoded message
has consumed exactly its declared length of attribute bytes; within the
length-bounded window a nonzero remainder of fewer than 4 bytes (too small
for a frame header) fails with TrailingGarbage, a window of at least 4
bytes but smaller than the first frame's padded size fails with
TruncatedAttribute, and either loop failure is the deserializer's verdict:
the message is rejected, not repaired. -/
theorem c8_declared_length_authoritative :
    (∀ (data : List Nat) (msg : Message),
      tnet_stun_message_deserialize data = .ok msg →
      attrsWireSize msg.attributes = msg.length) ∧
    (∀ w : List Nat, 0 < w.length → w.length < 4 →
      parseAttrs w = .error .TrailingGarbage) ∧
    (∀ w : List Nat, 4 ≤ w.length →
      w.length < 4 + align4 (read16 (w.getD 2 0) (w.getD 3 0)) →
      parseAttrs w = .error .TruncatedAttribute) ∧
    (∀ (data : List Nat) (e : StunError),
      ¬ data.length < TNET_STUN_HEADER_SIZE →
      ¬ data.getD 0 0 &&& 0xC0 ≠ 0 →
      ¬ read32 (data.getD 4 0) (data.getD 5 0) (data.getD 6 0) (data.getD 7 0)
        ≠ TNET_STUN_MAGIC_COOKIE →
      ¬ data.length - TNET_STUN_HEADER_SIZE < read16 (data.getD 2 0) (data.getD 3 0) →
      parseAttrs ((data.drop TNET_STUN_HEADER_SIZE).take
        (read16 (data.getD 2 0) (data.getD 3 0))) = .error e →
      tnet_stun_message_deserialize data = .error e) :=
  ⟨deserialize_ok_consumed, parseAttrs_small_garbage, parseAttrs_head_truncated,
    fun data e h0 h1 h2 h3 he => deserialize_attrs_error data h0 h1 h2 h3 e he⟩

/-- C8 witness: exact consumption on the concrete 20-byte message; a
1-byte window is TrailingGarbage; a 4-byte window declaring length 5 is
TruncatedAttribute; the 22-byte buffer with a 2-byte remainder is
rejected by the deserializer with TrailingGarbage. -/
theorem c8_declared_length_authoritative_witness :
    attrsWireSize msg_binding_success.attributes = msg_binding_success.length ∧
    parseAttrs [9] = .error .TrailingGarbage ∧
    parseAttrs [0, 0, 0, 5] = .error .TruncatedAttribute ∧
    tnet_stun_message_deserialize
        ([0, 0, 0, 2, 0x21, 0x12, 0xA4, 0x42] ++ List.replicate 12 0 ++ [9, 9])
      = .error .TrailingGarbage :=
  ⟨c8_declared_length_authoritative.1
      ([0x01, 0x01, 0x00, 0x00, 0x21, 0x12, 0xA4, 0x42] ++ List.replicate 12 0)
      msg_binding_success (by decide),
   c8_declared_length_authoritative.2.1 [9] (by decide) (by decide),
   c8_declared_length_authoritative.2.2.1 [0, 0, 0, 5] (by decide) (by decide),
   c8_declared_length_authoritative.2.2.2
      ([0, 0, 0, 2, 0x21, 0x12, 0xA4, 0x42] ++ List.replicate 12 0 ++ [9, 9])
      .TrailingGarbage (by decide) (by decide) (by decide) (by decide) (by decide)⟩

/-- C9: serialize fails with MessageTooLarge exactly when the rendered
attribute section exceeds 65535 bytes; on success the header length field
carries the total aligned attribute size; and deserialize never produces
MessageTooLarge. -/
theorem c9_message_too_large :
    (∀ msg : Message, tnet_stun_message_serialize msg = .error .MessageTooLarge ↔
      65535 < attrsWireSize msg.attributes) ∧
    (∀ (msg : Message) (out : List Nat), tnet_stun_message_serialize msg = .ok out →
      read16 (out.getD 2 0) (out.getD 3 0) = attrsWireSize msg.attributes) ∧
    (∀ data : List Nat, tnet_stun_message_deserialize data ≠ .error .MessageTooLarge) := by
  refine ⟨?_, ?_, ?_⟩
  · intro msg
    unfold tnet_stun_message_serialize
    by_cases hc : 65535 < (serializeAttrs msg.attributes).length
    · rw [if_pos hc]
      rw [serializeAttrs_length] at hc
      exact ⟨fun _ => hc, fun _ => rfl⟩
    · rw [if_neg hc]
      rw [serializeAttrs_length] at hc
      exact ⟨fun h => (nomatch h), fun h => absurd h hc⟩
  · intro msg out h
    unfold tnet_stun_message_serialize at h
    by_cases hc : 65535 < (serializeAttrs msg.attributes).length
    · rw [if_pos hc] at h
      cases h
    · rw [if_neg hc] at h
      cases h
      have hcons : be16 (stun_type_encode msg.type.1 msg.type.2) ++
          be16 (serializeAttrs msg.attributes).length ++
          be32 TNET_STUN_MAGIC_COOKIE ++ msg.transaction_id ++ serializeAttrs msg.attributes
          = stun_type_encode msg.type.1 msg.type.2 / 256 % 256 ::
            stun_type_encode msg.type.1 msg.type.2 % 256 ::
            (serializeAttrs msg.attributes).length / 256 % 256 ::
            (serializeAttrs msg.attributes).length % 256 ::
            (be32 TNET_STUN_MAGIC_COOKIE ++
              (msg.transaction_id ++ serializeAttrs msg.attributes)) := by
        simp [be16]
      rw [hcons]
      have hg2 : ∀ (x0 x1 x2 x3 : Nat) (t : List Nat),
          read16 ((x0 :: x1 :: x2 :: x3 :: t).getD 2 0) ((x0 :: x1 :: x2 :: x3 :: t).getD 3 0)
          = read16 x2 x3 := fun _ _ _ _ _ => rfl
      rw [hg2, read16_be16 _ (by omega), serializeAttrs_length]
  · intro data h
    unfold tnet_stun_message_deserialize at h
    by_cases h0 : data.length < TNET_STUN_HEADER_SIZE
    · rw [if_pos h0] at h
      cases h
    · rw [if_neg h0] at h
      by_cases h1 : data.getD 0 0 &&& 0xC0 ≠ 0
      · rw [if_pos h1] at h
        cases h
      · rw [if_neg h1] at h
        by_cases h2 : read32 (data.getD 4 0) (data.getD 5 0) (data.getD 6 0) (data.getD 7 0)
            ≠ TNET_STUN_MAGIC_COOKIE
        · rw [if_pos h2] at h
          cases h
        · rw [if_neg h2] at h
          by_cases h3 : data.length - TNET_STUN_HEADER_SIZE
              < read16 (data.getD 2 0) (data.getD 3 0)
          · rw [if_pos h3] at h
            cases h
          · rw [if_neg h3] at h
            cases hp : parseAttrs ((data.drop TNET_STUN_HEADER_SIZE).take
                (read16 (data.getD 2 0) (data.getD 3 0))) with
            | error e =>
              rw [hp] at h
              cases h
              exact parseAttrsFuel_no_mtl _ _ hp
            | ok attrs =>
              rw [hp] at h
              cases hd : stun_type_decode (read16 (data.getD 0 0) (data.getD 1 0)) with
              | error e =>
                rw [hd] at h
                cases h
                cases stun_type_decode_error _ _ hd
              | ok cm =>
                rw [hd] at h
                cases h

/-- C9 witness: the iff, the length field equation and the
never-MessageTooLarge fact at concrete inputs. -/
theorem c9_message_too_large_witness :
    (tnet_stun_message_serialize msg_binding_success = .error .MessageTooLarge ↔
      65535 < attrsWireSize msg_binding_success.attributes) ∧
    read16 ((([0x01, 0x01, 0x00, 0x00, 0x21, 0x12, 0xA4, 0x42] ++
        List.replicate 12 0 : List Nat)).getD 2 0)
      ((([0x01, 0x01, 0x00, 0x00, 0x21, 0x12, 0xA4, 0x42] ++
        List.replicate 12 0 : List Nat)).getD 3 0)
      = attrsWireSize msg_binding_success.attributes ∧
    tnet_stun_message_deserialize [] ≠ .error .MessageTooLarge :=
  ⟨c9_message_too_large.1 msg_binding_success,
   c9_message_too_large.2.1 msg_binding_success
     ([0x01, 0x01, 0x00, 0x00, 0x21, 0x12, 0xA4, 0x42] ++ List.replicate 12 0) (by decide),
   c9_message_too_large.2.2 []⟩

/-! ## The serialize/deserialize round trip -/

theorem getD23_cons (x0 x1 x2 x3 : Nat) (t : List Nat) :
    read16 ((x0 :: x1 :: x2 :: x3 :: t).getD 2 0) ((x0 :: x1 :: x2 :: x3 :: t).getD 3 0)
      = read16 x2 x3 := rfl

theorem getD01_cons (x0 x1 x2 x3 : Nat) (t : List Nat) :
    read16 ((x0 :: x1 :: x2 :: x3 :: t).getD 0 0) ((x0 :: x1 :: x2 :: x3 :: t).getD 1 0)
      = read16 x0 x1 := rfl

theorem drop4_cons (x0 x1 x2 x3 : Nat) (t : List Nat) :
    (x0 :: x1 :: x2 :: x3 :: t).drop 4 = t := rfl

theorem drop_4add (k x0 x1 x2 x3 : Nat) (t : List Nat) :
    (x0 :: x1 :: x2 :: x3 :: t).drop (4 + k) = t.drop k := by
  rw [Nat.add_comm]
  rfl

theorem len_cons4 (x0 x1 x2 x3 : Nat) (t : List Nat) :
    (x0 :: x1 :: x2 :: x3 :: t).length = 4 + t.length := by
  simp
  omega

theorem parseAttrsFuel_cons (fuel b0 b1 b2 b3 : Nat) (t : List Nat)
    (h : ¬ 4 + t.length < 4 + align4 (read16 b2 b3)) :
    parseAttrsFuel (fuel + 1) (b0 :: b1 :: b2 :: b3 :: t) =
      match parseAttrsFuel fuel (t.drop (align4 (read16 b2 b3))) with
      | .ok rest => .ok (⟨read16 b0 b1, t.take (read16 b2 b3)⟩ :: rest)
      | .error e => .error e := by
  simp only [parseAttrsFuel]
  rw [getD23_cons, getD01_cons, len_cons4, drop_4add, drop4_cons]
  rw [if_neg (by omega), if_neg (by omega), if_neg h]

theorem attrWireSize_ge4 (a : AttributeFrame) : 4 ≤ attrWireSize a := by
  unfold attrWireSize
  have := align4_ge (4 + a.value.length)
  omega

theorem parseAttrsFuel_serializeAttrs (fuel : Nat) :
    ∀ l : List AttributeFrame, AttrsValid l → (serializeAttrs l).length ≤ fuel →
      parseAttrsFuel fuel (serializeAttrs l) = .ok l := by
  induction fuel with
  | zero =>
    intro l hv hf
    cases l with
    | nil => rfl
    | cons a t =>
      exfalso
      have hsl := serializeAttrs_length (a :: t)
      rw [attrsWireSize_cons] at hsl
      have h4 := attrWireSize_ge4 a
      omega
  | succ fuel ih =>
    intro l hv hf
    cases l with
    | nil => rfl
    | cons a t =>
      obtain ⟨hatc, halen, hbytes⟩ := hv a (List.mem_cons_self a t)
      have hvt : AttrsValid t := fun x hx => hv x (List.mem_cons_of_mem a hx)
      have hge := align4_ge a.value.length
      have hL16 : a.value.length < 65536 := by omega
      have hw : serializeAttrs (a :: t)
          = a.type_code / 256 % 256 :: a.type_code % 256 ::
            a.value.length / 256 % 256 :: a.value.length % 256 ::
            (a.value ++ (List.replicate (align4 a.value.length - a.value.length) 0
              ++ serializeAttrs t)) := by
        show serializeAttr a ++ serializeAttrs t = _
        simp [serializeAttr, be16]
      have htail : (a.value ++ (List.replicate (align4 a.value.length - a.value.length) 0
          ++ serializeAttrs t)).length
          = align4 a.value.length + (serializeAttrs t).length := by
        simp
        omega
      have hslc := serializeAttrs_length (a :: t)
      rw [attrsWireSize_cons] at hslc
      have hws : attrWireSize a = 4 + align4 a.value.length := by
        unfold attrWireSize
        rw [align4_add4]
      rw [hw, parseAttrsFuel_cons _ _ _ _ _ _
        (by rw [read16_be16 _ hL16, htail]; omega)]
      rw [read16_be16 _ hL16, read16_be16 _ hatc]
      have hdrop : (a.value ++ (List.replicate (align4 a.value.length - a.value.length) 0
          ++ serializeAttrs t)).drop (align4 a.value.length) = serializeAttrs t := by
        rw [← List.append_assoc]
        exact List.drop_left' (by simp; omega)
      have hfuel : (serializeAttrs t).length ≤ fuel := by
        rw [hw] at hf
        rw [len_cons4, htail] at hf
        omega
      rw [hdrop, ih t hvt hfuel, List.take_left' rfl]

theorem deserialize_cons8 (x0 x1 x2 x3 x4 x5 x6 x7 : Nat) (t : List Nat) :
    tnet_stun_message_deserialize (x0 :: x1 :: x2 :: x3 :: x4 :: x5 :: x6 :: x7 :: t)
      = (if t.length + 8 < 20 then .error .Incomplete
        else if x0 &&& 0xC0 ≠ 0 then .error .NotStunMessage
        else if read32 x4 x5 x6 x7 ≠ TNET_STUN_MAGIC_COOKIE then .error .NotStunMessage
        else if t.length + 8 - 20 < read16 x2 x3 then .error .Incomplete
        else
          match parseAttrs ((t.drop 12).take (read16 x2 x3)) with
          | .error e => .error e
          | .ok attrs =>
            match stun_type_decode (read16 x0 x1) with
            | .error e => .error e
            | .ok cm =>
              .ok ⟨cm, read16 x2 x3, read32 x4 x5 x6 x7, t.take 12, attrs⟩) := rfl

/-- C4: serializing any validly constructed Message succeeds, and
deserializing the produced bytes yields a Message equal to the original in
type, cookie, transaction id, declared length and attribute sequence. -/
theorem c4_serialize_deserialize_roundtrip (msg : Message) (hv : msg.valid) :
    ∃ out, tnet_stun_message_serialize msg = .ok out ∧
      tnet_stun_message_deserialize out = .ok msg := by
  obtain ⟨hc, hm, hlen, hcookie, htid, htidb, hfit, hav⟩ := hv
  have hsl := serializeAttrs_length msg.attributes
  have hnotbig : ¬ 65535 < (serializeAttrs msg.attributes).length := by omega
  refine ⟨_, by unfold tnet_stun_message_serialize; rw [if_neg hnotbig], ?_⟩
  have hbe32 : be32 TNET_STUN_MAGIC_COOKIE = [0x21, 0x12, 0xA4, 0x42] := by decide
  have hcons : be16 (stun_type_encode msg.type.1 msg.type.2) ++
      be16 (serializeAttrs msg.attributes).length ++
      be32 TNET_STUN_MAGIC_COOKIE ++ msg.transaction_id ++ serializeAttrs msg.attributes
      = stun_type_encode msg.type.1 msg.type.2 / 256 % 256 ::
        stun_type_encode msg.type.1 msg.type.2 % 256 ::
        (serializeAttrs msg.attributes).length / 256 % 256 ::
        (serializeAttrs msg.attributes).length % 256 ::
        0x21 :: 0x12 :: 0xA4 :: 0x42 ::
        (msg.transaction_id ++ serializeAttrs msg.attributes) := by
    rw [hbe32]
    simp [be16]
  rw [hcons, deserialize_cons8]
  have htid12 : msg.transaction_id.length = 12 := htid
  have htl : (msg.transaction_id ++ serializeAttrs msg.attributes).length
      = 12 + (serializeAttrs msg.attributes).length := by
    simp [htid12]
  have htw := stun_type_encode_lt msg.type.1 msg.type.2
  have hb0 := land_0xC0 (stun_type_encode msg.type.1 msg.type.2 / 256 % 256)
  rw [if_neg (by omega)]
  rw [if_neg (not_ne_iff.mpr (by omega))]
  rw [if_neg (not_ne_iff.mpr (by decide))]
  rw [read16_be16 _ (by omega), read16_be16 _ (by omega)]
  rw [if_neg (by omega)]
  have hwin : ((msg.transaction_id ++ serializeAttrs msg.attributes).drop 12).take
      (serializeAttrs msg.attributes).length = serializeAttrs msg.attributes := by
    rw [List.drop_left' htid12, List.take_length]
  rw [hwin]
  have hparse : parseAttrs (serializeAttrs msg.attributes) = .ok msg.attributes :=
    parseAttrsFuel_serializeAttrs _ msg.attributes hav (le_refl _)
  rw [hparse, stun_type_decode_encode_aux msg.type.1 hc msg.type.2 hm]
  rw [List.take_left' htid12]
  have hck : read32 0x21 0x12 0xA4 0x42 = TNET_STUN_MAGIC_COOKIE := by decide
  rw [hck, hsl, ← hlen, ← hcookie]

/-- The concrete message used to witness the round trip: a binding request
with transaction id bytes 1..12 and one unknown comprehension-optional
attribute of 3 value bytes. -/
def msg_c4_witness_input : Message :=
  ⟨(0, 1), 8, TNET_STUN_MAGIC_COOKIE,
    [1, 2, 3, 4, 5, 6, 7, 8, 9, 10, 11, 12], [⟨0x8022, [65, 66, 67]⟩]⟩

/-- C4 witness: the round trip at a concrete valid message carrying one
attribute. -/
theorem c4_serialize_deserialize_roundtrip_witness :
    ∃ out, tnet_stun_message_serialize msg_c4_witness_input = .ok out ∧
      tnet_stun_message_deserialize out = .ok msg_c4_witness_input :=
  c4_serialize_deserialize_roundtrip msg_c4_witness_input
    (by unfold Message.valid AttrsValid; decide)

end Stun
